import Mathlib

/-!
Shallow embedding of the qiskit-machine-learning core
(neural_networks/circuit_qnn.py, connectors/torch_connector.py,
utils/loss_functions/loss.py) together with proofs about it.

Modelling conventions: Python exceptions become Except, measurement
counts are natural numbers, and float arithmetic on the small exact
values the claims mention is embedded as exact rational arithmetic
(floating-point rounding is not modelled).  The numpy arrays that the
loss functions and the adapter touch have rank 0, 1 or 2 and are
embedded as NpArr.
-/

namespace QML

/-- Python exceptions raised by the embedded code paths.
QiskitMachineLearningError is the single error class of the package;
the other constructors are builtin Python exceptions. -/
inductive PyErr
  | qiskitMLError (msg : String)
  | attributeError (msg : String)
  | valueError (msg : String)
  | typeError (msg : String)
  | indexError (msg : String)
  deriving DecidableEq

/-- A numpy ndarray of rank 0, 1 or 2 with exact rational entries. -/
inductive NpArr
  | scalar (x : ℚ)
  | vec (xs : List ℚ)
  | mat (xss : List (List ℚ))
  deriving DecidableEq

/-- len(a.shape). -/
def NpArr.rank : NpArr → ℕ
  | .scalar _ => 0
  | .vec _ => 1
  | .mat _ => 2

/-- Elementwise numpy subtraction, including scalar broadcasting. -/
def NpArr.sub : NpArr → NpArr → NpArr
  | .scalar x, .scalar y => .scalar (x - y)
  | .scalar x, .vec ys => .vec (ys.map fun y => x - y)
  | .scalar x, .mat ys => .mat (ys.map fun r => r.map fun y => x - y)
  | .vec xs, .scalar y => .vec (xs.map fun x => x - y)
  | .vec xs, .vec ys => .vec (List.zipWith (fun x y => x - y) xs ys)
  | .vec xs, .mat ys => .mat (ys.map fun r => List.zipWith (fun x y => x - y) xs r)
  | .mat xs, .scalar y => .mat (xs.map fun r => r.map fun x => x - y)
  | .mat xs, .vec ys => .mat (xs.map fun r => List.zipWith (fun x y => x - y) r ys)
  | .mat xs, .mat ys => .mat (List.zipWith (List.zipWith (fun x y => x - y)) xs ys)

/-- All entries of the array in row-major order. -/
def NpArr.entries : NpArr → List ℚ
  | .scalar x => [x]
  | .vec xs => xs
  | .mat xss => xss.flatten

/-- np.linalg.norm with default ord flattens the array and returns the
square root of the sum of squares of the entries (this fast path accepts
rank 0).  L2Loss immediately squares that norm, and in exact real
arithmetic the square of the root is the sum of squares itself, so we
embed the composite np.linalg.norm(x) ** 2 directly. -/
def normSq (x : NpArr) : ℚ := (x.entries.map fun v => v * v).sum

/-- np.linalg.norm with ord 1 and no axis: for a rank 1 array the sum of
absolute values; for a rank 0 array numpy raises ValueError (Improper
number of dimensions to norm); for a rank 2 array it is the maximum
absolute column sum. -/
def normOrd1 : NpArr → Except PyErr ℚ
  | .scalar _ => .error (.valueError "Improper number of dimensions to norm.")
  | .vec xs => .ok (xs.map (fun v => |v|)).sum
  | .mat xss =>
      .ok ((xss.transpose.map fun c => (c.map (fun v => |v|)).sum).foldr max 0)

/-- np.linalg.norm with default ord along the last axis, squared by the
caller: per-row sum of squares of a rank 2 array (numpy rejects an axis
argument out of bounds for lower rank). -/
def normSqLastAxis : NpArr → Except PyErr NpArr
  | .mat xss => .ok (.vec (xss.map fun r => (r.map fun v => v * v).sum))
  | _ => .error (.valueError "axis is out of bounds for array")

/-- np.linalg.norm with ord 1 along the last axis: per-row sum of
absolute values of a rank 2 array. -/
def normOrd1LastAxis : NpArr → Except PyErr NpArr
  | .mat xss => .ok (.vec (xss.map fun r => (r.map fun v => |v|).sum))
  | _ => .error (.valueError "axis is out of bounds for array")

/-- loss.py lines 26-35, L2Loss.evaluate: np.array conversion is the
identity on ndarray input; the branch structure of the source is kept
verbatim: len(shape) at most 1, then len(shape) above 1, then the raise
of QiskitMachineLearningError (Invalid shape). -/
def L2Loss_evaluate (predict target : NpArr) : Except PyErr NpArr :=
  if predict.rank ≤ 1 then
    .ok (.scalar (normSq (predict.sub target)))
  else if predict.rank > 1 then
    normSqLastAxis (predict.sub target)
  else
    .error (.qiskitMLError "Invalid shape!")

/-- loss.py lines 37-40, L2Loss.gradient: 2 * (predict - target). -/
def L2Loss_gradient (predict target : NpArr) : NpArr :=
  match predict.sub target with
  | .scalar x => .scalar (2 * x)
  | .vec xs => .vec (xs.map fun x => 2 * x)
  | .mat xss => .mat (xss.map fun r => r.map fun x => 2 * x)

/-- loss.py lines 45-51, L1Loss.evaluate: same branch structure as
L2Loss.evaluate, with np.linalg.norm called with ord 1 (and with the
last axis in the rank above 1 branch). -/
def L1Loss_evaluate (predict target : NpArr) : Except PyErr NpArr :=
  if predict.rank ≤ 1 then
    match normOrd1 (predict.sub target) with
    | .ok v => .ok (.scalar v)
    | .error e => .error e
  else if predict.rank > 1 then
    normOrd1LastAxis (predict.sub target)
  else
    .error (.qiskitMLError "Invalid shape!")

/-- loss.py lines 53-61, L1Loss.gradient: every reachable branch
evaluates the expression np.linalg.sign(...), but the numpy.linalg
module has no attribute named sign (the existing function is np.sign),
so the attribute lookup raises AttributeError before anything is
computed.  The dead final branch of the source is kept. -/
def L1Loss_gradient (predict target : NpArr) : Except PyErr NpArr :=
  if predict.rank ≤ 1 then
    .error (.attributeError "module numpy.linalg has no attribute sign")
  else if predict.rank > 1 then
    .error (.attributeError "module numpy.linalg has no attribute sign")
  else
    .error (.qiskitMLError "Invalid shape!")

/-- loss.py lines 12-13, Loss.__call__: the body evaluates
self.evaluate(predict, target) and falls off the end without a return
statement, so the call returns None (Option.none); the evaluated result
is discarded, though an exception raised by evaluate still propagates. -/
def lossCall {α β V : Type} (evaluate : α → β → Except PyErr (Option V))
    (predict : α) (target : β) : Except PyErr (Option V) := do
  let _ ← evaluate predict target
  pure none

/-- The interpret remapping of circuit_qnn.py: the optional callable
applied to a raw bitstring integer when present (lines 148-149, 175-176,
198-200, 209-211), the identity otherwise.  Integer and integer-tuple
output keys are both modelled as naturals (a tuple key is a flat index
into the output shape). -/
def applyInterpret (interpret : Option (ℕ → ℕ)) (k : ℕ) : ℕ :=
  match interpret with
  | none => k
  | some f => f k

/-- The value stored for the per-shot-memory key of
QuantumInstance.backend_options: Python None (the .get default when the
key is absent) or a boolean. -/
inductive PyMem
  | none
  | bool (b : Bool)
  deriving DecidableEq

/-- int(b, 2) on a bitstring given most significant bit first. -/
def bitsToNat (b : List Bool) : ℕ :=
  b.foldl (fun acc bit => 2 * acc + (if bit then 1 else 0)) 0

/-- Outcome of one call of CircuitQNN._sample: the value of the
backend_options memory flag after the call completes (normally or by
exception) and the per-shot interpreted samples or the propagated
exception. -/
structure SampleOutcome where
  finalMemory : PyMem
  result : Except PyErr (List ℕ)

/-- circuit_qnn.py lines 129-151, CircuitQNN._sample.  The backend
execute call of line 140 is the external collaborator; its behaviour for
this call (the per-shot bitstrings of get_memory, or an exception) is
the execResult argument.  The statements are embedded in source order:
the statevector guard (130-131), orig_memory = backend_options.get
(line 138), backend_options[memory] = True (line 139), execute
(line 140), backend_options[memory] = orig_memory (line 141), and the
per-shot loop (146-150) mapping each bitstring through int(b, 2) and
interpret (the scalar is broadcast over the output-shape slots of the
samples array; we record the per-shot scalar).  There is no try/finally
in the source: an exception raised by line 140 propagates immediately
and line 141 is never executed. -/
def CircuitQNN_sample (is_statevector : Bool) (memory0 : PyMem)
    (execResult : Except PyErr (List (List Bool)))
    (interpret : Option (ℕ → ℕ)) : SampleOutcome :=
  if is_statevector then
    { finalMemory := memory0
      result := .error (.qiskitMLError
        "Sampling does not work with statevector simulator!") }
  else
    match execResult with
    | .error e => { finalMemory := PyMem.bool true, result := .error e }
    | .ok memory =>
        { finalMemory := memory0
          result := .ok (memory.map fun b =>
            applyInterpret interpret (bitsToNat b)) }

/-- The output_shape argument of the CircuitQNN constructor:
None, an integer, or a tuple. -/
inductive ShapeArg
  | none
  | int (n : ℕ)
  | tuple (l : List ℕ)
  deriving DecidableEq

/-- Python truthiness of a ShapeArg: None and the integer 0 and the
empty tuple are falsy. -/
def ShapeArg.truthy : ShapeArg → Bool
  | .none => false
  | .int n => n ≠ 0
  | .tuple l => !l.isEmpty

/-- The backend handle (QuantumInstance) as the constructor consumes it. -/
structure BackendHandle where
  is_statevector : Bool
  deriving DecidableEq

/-- The attributes of a constructed CircuitQNN that the claims mention:
what super().__init__ on line 106-107 stores (sampling_neural_network.py
is not part of the sources; modelled from the spec, section 3, which
says the base class records num_inputs, num_weights, dense,
return_samples and output_shape as given). -/
structure QNNAttrs where
  num_inputs : ℕ
  num_weights : ℕ
  dense : Bool
  return_samples : Bool
  output_shape : ShapeArg
  deriving DecidableEq

/-- circuit_qnn.py lines 66-107, CircuitQNN.__init__, in source order.

* Line 70 copies the circuit; line 71 reads
  quantum_instance.is_statevector, which raises AttributeError when
  quantum_instance is None (no earlier validation exists).  Lines 71-75
  only add or remove measurements on the private circuit copy.
* Lines 77-78 default input_params and weight_params to [].
* Lines 80-88 compute the stored output shape: in return_samples mode
  the supplied output_shape if truthy else (1,); otherwise
  (2 ** circuit.num_qubits,); and when interpret is given, a raise of
  QiskitMachineLearningError if output_shape is None, else the supplied
  output_shape verbatim.
* Line 103 evaluates list(input_params) + list(weight_params) on the raw
  arguments, which raises TypeError when either is None.
* Line 104 builds the gradient via the external gradient engine, whose
  contract (spec section 6) has no failure mode; nothing in the
  constructor compares input_params or weight_params with the free
  parameters of the circuit, so circuitParams is read by no statement.
-/
def circuitQNNInit (circuitNumQubits : ℕ) (circuitParams : List ℕ)
    (input_params weight_params : Option (List ℕ))
    (dense return_samples : Bool) (interpret : Option (ℕ → ℕ))
    (output_shape : ShapeArg) (quantum_instance : Option BackendHandle) :
    Except PyErr QNNAttrs := do
  let _qi ← match quantum_instance with
    | Option.none => Except.error (.attributeError
        "NoneType object has no attribute is_statevector")
    | Option.some qi => Except.ok qi
  let inputParams := input_params.getD []
  let weightParams := weight_params.getD []
  let os1 := if return_samples then
      (if output_shape.truthy then output_shape else ShapeArg.tuple [1])
    else ShapeArg.tuple [2 ^ circuitNumQubits]
  let os2 ← if interpret.isSome then
      (if output_shape = ShapeArg.none then
        Except.error (.qiskitMLError
          "No output shape given, but required in case of custom interpret!")
      else Except.ok output_shape)
    else Except.ok os1
  let _ ← match input_params with
    | Option.none => Except.error (.typeError "NoneType object is not iterable")
    | Option.some l => Except.ok l
  let _ ← match weight_params with
    | Option.none => Except.error (.typeError "NoneType object is not iterable")
    | Option.some l => Except.ok l
  pure { num_inputs := inputParams.length
         num_weights := weightParams.length
         dense := dense
         return_samples := return_samples
         output_shape := os2 }

/-- The scalar normalization of torch_connector.py lines 60-62: a rank 0
numpy result is wrapped into a one-element rank 1 array, any other rank
is returned unchanged. -/
def normalizeResult : NpArr → NpArr
  | .scalar x => .vec [x]
  | r => r

/-- torch_connector.py lines 42-66, _TorchNNFunction.forward.  The
wrapped network is the external collaborator; its forward call is the
qnnForward argument, invoked at most once.  input.shape[-1] on an empty
shape (a rank 0 tensor) raises IndexError; when the trailing dimension
differs from qnn.num_inputs the function raises
QiskitMachineLearningError before qnnForward is invoked; otherwise the
result is normalized via normalizeResult (the ctx bookkeeping of lines
64-65 stores references for backward and returns nothing). -/
def torchNNForward (num_inputs : ℕ) (inputShape : List ℕ)
    (qnnForward : Unit → Except PyErr NpArr) : Except PyErr NpArr :=
  match inputShape.getLast? with
  | Option.none => Except.error (.indexError "tuple index out of range")
  | Option.some last =>
    if last ≠ num_inputs then
      Except.error (.qiskitMLError "Invalid input dimension!")
    else
      match qnnForward () with
      | .error e => .error e
      | .ok result => .ok (normalizeResult result)

/-- Claim C4: L1Loss.evaluate on predict = [3, -4], target = [0, 0]
returns 7.0, but L1Loss.gradient on the same arguments does not return
[1, -1]: it raises AttributeError because numpy.linalg has no attribute
named sign.  This theorem evaluates the code at the failing input. -/
theorem claimC4_l1loss_at_failing_input :
    L1Loss_evaluate (NpArr.vec [3, -4]) (NpArr.vec [0, 0])
      = Except.ok (NpArr.scalar 7)
    ∧ L1Loss_gradient (NpArr.vec [3, -4]) (NpArr.vec [0, 0])
      = Except.error (PyErr.attributeError
          "module numpy.linalg has no attribute sign") := by
  constructor
  · norm_num [L1Loss_evaluate, NpArr.rank, NpArr.sub, normOrd1]
  · rfl

/-- Claim C8 counterexample: on the rank 0 input predict = 3, target = 0,
L2Loss.evaluate does not raise InvalidShapeError; it returns the value 9
(the rank 0 case falls into the len(shape) at most 1 branch, and the
default norm accepts rank 0 input). -/
theorem claimC8_counterexample :
    L2Loss_evaluate (NpArr.scalar 3) (NpArr.scalar 0)
      = Except.ok (NpArr.scalar 9) := by
  norm_num [L2Loss_evaluate, NpArr.rank, NpArr.sub, normSq, NpArr.entries]

/-- Claim C8 amended: on rank 0 input, L2Loss.evaluate returns the
squared difference rather than raising, and L1Loss.evaluate propagates
the ValueError of the norm routine; the InvalidShapeError raise in both
evaluate methods is unreachable for every input, because the conditions
len(shape) at most 1 and len(shape) above 1 are exhaustive. -/
theorem claimC8_amended_rank0_behaviour (x y : ℚ) :
    L2Loss_evaluate (NpArr.scalar x) (NpArr.scalar y)
      = Except.ok (NpArr.scalar ((x - y) * (x - y)))
    ∧ L1Loss_evaluate (NpArr.scalar x) (NpArr.scalar y)
      = Except.error (PyErr.valueError "Improper number of dimensions to norm.")
    ∧ ∀ (p t : NpArr) (msg : String),
        L2Loss_evaluate p t ≠ Except.error (PyErr.qiskitMLError msg)
        ∧ L1Loss_evaluate p t ≠ Except.error (PyErr.qiskitMLError msg) := by
  refine ⟨?_, ?_, ?_⟩
  · simp [L2Loss_evaluate, NpArr.rank, NpArr.sub, normSq, NpArr.entries]
  · simp [L1Loss_evaluate, NpArr.rank, NpArr.sub, normOrd1]
  · intro p t msg
    constructor
    · cases p <;> cases t <;>
        simp [L2Loss_evaluate, NpArr.rank, NpArr.sub, normSqLastAxis]
    · cases p <;> cases t <;>
        simp [L1Loss_evaluate, NpArr.rank, NpArr.sub, normOrd1,
          normOrd1LastAxis]

/-- The accumulation pattern shared by CircuitQNN._probabilities and
CircuitQNN._probability_gradients:
container[key] = container.get(key, 0) + value, folded over a list of
items starting from the all-zero map (the zero-initialized dense numpy
array of line 168, the sparse DOK of line 170 with += on line 177, and
the dicts of lines 201-202 and 212-213; an absent dense index, an
unstored DOK key and a missing dict key all read as 0). -/
def accumBy {α : Type} (kf : α → ℕ) (vf : α → ℚ) (l : List α) : ℕ → ℚ :=
  l.foldl (fun acc x => Function.update acc (kf x) (acc (kf x) + vf x))
    (fun _ => 0)

/-- Dictionary lookup with default 0: the count stored for raw bitstring
index b in a counts dictionary given as a key-value list (0 when b was
never measured). -/
def dictGet (counts : List (ℕ × ℕ)) (b : ℕ) : ℕ :=
  match counts.find? (fun p => p.1 == b) with
  | Option.none => 0
  | Option.some p => p.2

/-- circuit_qnn.py lines 153-179, CircuitQNN._probabilities, after the
backend execute call: counts is the result.get_counts() dictionary as a
list of (int(b, 2), count) pairs (a dict, hence distinct keys), shots is
the sum of the counts (line 163), and the loop of lines 173-177
accumulates v / shots at the interpreted key with +=, so colliding
interpreted keys sum.  Dense array and sparse DOK agree as key-indexed
maps, which is what this returns. -/
def CircuitQNN_probabilities (interpret : Option (ℕ → ℕ))
    (counts : List (ℕ × ℕ)) : ℕ → ℚ :=
  accumBy (fun p => applyInterpret interpret p.1)
    (fun p => (p.2 : ℚ) / ((counts.map Prod.snd).sum : ℚ)) counts

/-- circuit_qnn.py lines 193-202: input_grad_dicts[i], built by folding
dict[key] = dict.get(key, 0.0) + np.real(grad[i][k]) over
k in range(2 ** num_qubits).  grad is the complex tensor produced by the
external gradient engine (spec section 6), modelled as a function to
(real part, imaginary part) pairs; np.real takes the first component.
The materialization loop of lines 230-232 copies each dict entry to the
array slot [0, i, key] exactly once (dict keys are distinct), so the
final array entry at an output key equals this dict entry. -/
def CircuitQNN_input_grad_dict (interpret : Option (ℕ → ℕ))
    (numQubits : ℕ) (grad : ℕ → ℕ → ℚ × ℚ) (i : ℕ) : ℕ → ℚ :=
  accumBy (fun k => applyInterpret interpret k) (fun k => (grad i k).1)
    (List.range (2 ^ numQubits))

/-- circuit_qnn.py lines 204-213: weights_grad_dicts[i], identical to
the input dictionaries except that row i + num_inputs of the gradient
tensor is read (line 213); materialized by lines 234-236. -/
def CircuitQNN_weight_grad_dict (interpret : Option (ℕ → ℕ))
    (numQubits num_inputs : ℕ) (grad : ℕ → ℕ → ℚ × ℚ) (i : ℕ) : ℕ → ℚ :=
  accumBy (fun k => applyInterpret interpret k)
    (fun k => (grad (i + num_inputs) k).1) (List.range (2 ^ numQubits))

/-- Concrete counts dictionary used by the witnesses: a 2-qubit
measurement with counts 1, 1, 2 for raw outcomes 0, 1, 2. -/
def wCounts : List (ℕ × ℕ) := [(0, 1), (1, 1), (2, 2)]

/-- Concrete interpret function used by the witnesses: the parity map
sending raw outcomes 0 and 2 to key 0 and raw outcomes 1 and 3 to
key 1 (non-injective). -/
def wInterp : Option (ℕ → ℕ) := Option.some (fun k => k % 2)

/-- Concrete amplitude-gradient tensor used by the witnesses. -/
def wGrad : ℕ → ℕ → ℚ × ℚ := fun i k => ((k : ℚ) + (i : ℚ), 3)

/-- Claim C1: the save-modify-restore of the backend memory flag in
CircuitQNN._sample does NOT execute on all exit paths.  With the flag
initially False on a shot-based backend, an execute call that raises
leaves the flag set to True after the call: line 141 (the restore) is
written after line 140 (execute) with no try/finally, so the exception
skips it.  This theorem evaluates the code at the failing input. -/
theorem claimC1_memory_flag_left_mutated :
    (CircuitQNN_sample false (PyMem.bool false)
        (Except.error (PyErr.qiskitMLError "injected failure"))
        Option.none).finalMemory = PyMem.bool true
    ∧ PyMem.bool true ≠ PyMem.bool false :=
  ⟨rfl, by decide⟩

/-- Claim C3 counterexample: a circuit with free parameters 0 and 1,
constructed with input_params = [0] and weight_params = [] (parameter 1
is covered by neither list), is accepted: construction returns the
network attributes and raises nothing, refuting the claim that such a
non-partition is rejected with DimensionMismatchError. -/
theorem claimC3_counterexample :
    circuitQNNInit 1 [0, 1] (Option.some [0]) (Option.some [])
        false false Option.none ShapeArg.none (Option.some ⟨false⟩)
      = Except.ok { num_inputs := 1, num_weights := 0, dense := false,
                    return_samples := false,
                    output_shape := ShapeArg.tuple [2] } := rfl

/-- Claim C3 amended: the constructor performs no comparison of
input_params and weight_params against the free parameters of the
circuit: its outcome is completely independent of the circuit parameter
list, so a missing, extra, or duplicated parameter is never rejected at
construction time. -/
theorem claimC3_amended_no_partition_check (circuitNumQubits : ℕ)
    (ps qs : List ℕ) (input_params weight_params : Option (List ℕ))
    (dense return_samples : Bool) (interpret : Option (ℕ → ℕ))
    (output_shape : ShapeArg) (quantum_instance : Option BackendHandle) :
    circuitQNNInit circuitNumQubits ps input_params weight_params dense
        return_samples interpret output_shape quantum_instance
      = circuitQNNInit circuitNumQubits qs input_params weight_params dense
        return_samples interpret output_shape quantum_instance := rfl

/-- Claim C6 counterexample: with interpret absent, return_samples mode
and a supplied output_shape of (5,), the stored output shape is (5,) and
not (1,): the supplied argument is not ignored in raw-sample mode. -/
theorem claimC6_counterexample :
    circuitQNNInit 2 [] (Option.some []) (Option.some []) false true
        Option.none (ShapeArg.tuple [5]) (Option.some ⟨false⟩)
      = Except.ok { num_inputs := 0, num_weights := 0, dense := false,
                    return_samples := true,
                    output_shape := ShapeArg.tuple [5] }
    ∧ ShapeArg.tuple [5] ≠ ShapeArg.tuple [1] :=
  ⟨rfl, by decide⟩

/-- Claim C6 amended: when interpret is absent (and the remaining
arguments are well formed), construction succeeds and the stored
output_shape is (2 ** num_qubits,) in probability mode regardless of the
supplied output_shape argument, while in raw-sample mode it is the
supplied output_shape whenever that argument is truthy and (1,) only
when it is absent or falsy. -/
theorem claimC6_amended_output_shape (circuitNumQubits : ℕ)
    (circuitParams : List ℕ) (ip wp : List ℕ)
    (dense return_samples : Bool) (output_shape : ShapeArg)
    (qi : BackendHandle) :
    circuitQNNInit circuitNumQubits circuitParams (Option.some ip)
        (Option.some wp) dense return_samples Option.none output_shape
        (Option.some qi)
      = Except.ok { num_inputs := ip.length, num_weights := wp.length,
                    dense := dense, return_samples := return_samples,
                    output_shape :=
                      if return_samples then
                        (if output_shape.truthy then output_shape
                         else ShapeArg.tuple [1])
                      else ShapeArg.tuple [2 ^ circuitNumQubits] } := rfl

/-- Claim C7: the autograd adapter forward raises
QiskitMachineLearningError whenever the trailing dimension of the input
shape differs from num_inputs, and it does so for every possible
behaviour of the wrapped network (the network forward is not invoked);
when the dimensions agree it calls the network forward and normalizes a
rank 0 result into a one-element vector. -/
theorem claimC7_torch_forward (num_inputs d : ℕ) (inputShape : List ℕ)
    (h : inputShape.getLast? = Option.some d) :
    (d ≠ num_inputs → ∀ qnnForward,
        torchNNForward num_inputs inputShape qnnForward
          = Except.error (PyErr.qiskitMLError "Invalid input dimension!"))
    ∧ (d = num_inputs → ∀ qnnForward (r : NpArr),
        qnnForward () = Except.ok r →
        torchNNForward num_inputs inputShape qnnForward
          = Except.ok (normalizeResult r)) := by
  constructor
  · intro hne qnnForward
    unfold torchNNForward
    rw [h]
    exact if_pos hne
  · intro heq qnnForward r hr
    subst heq
    simp [torchNNForward, h, hr]

/-- Claim C7 witness: input shape (1, 2) against a network with 3 inputs
fails with the dimension error for a network returning a vector; input
shape (1, 2) against a network with 2 inputs returning the scalar 5
yields the one-element vector [5]. -/
theorem claimC7_witness :
    torchNNForward 3 [1, 2] (fun _ => Except.ok (NpArr.vec [1, 2, 3]))
      = Except.error (PyErr.qiskitMLError "Invalid input dimension!")
    ∧ torchNNForward 2 [1, 2] (fun _ => Except.ok (NpArr.scalar 5))
      = Except.ok (NpArr.vec [5]) :=
  ⟨(claimC7_torch_forward 3 2 [1, 2] rfl).1 (by decide) _,
   (claimC7_torch_forward 2 2 [1, 2] rfl).2 rfl _ (NpArr.scalar 5) rfl⟩

/-- Claim C10: constructing a CircuitQNN with quantum_instance left as
None always raises: line 71 reads quantum_instance.is_statevector before
any other validation, so whatever the remaining arguments are, the
result is the AttributeError of the None access and no network object is
produced. -/
theorem claimC10_ctor_requires_backend (circuitNumQubits : ℕ)
    (circuitParams : List ℕ) (input_params weight_params : Option (List ℕ))
    (dense return_samples : Bool) (interpret : Option (ℕ → ℕ))
    (output_shape : ShapeArg) :
    circuitQNNInit circuitNumQubits circuitParams input_params
        weight_params dense return_samples interpret output_shape
        Option.none
      = Except.error (PyErr.attributeError
          "NoneType object has no attribute is_statevector") := rfl

/-- Claim C9: Loss.__call__ invokes evaluate but discards its result and
returns None, so whenever evaluate returns a value other than None the
direct call and evaluate disagree. -/
theorem claimC9_loss_call_returns_none {α β V : Type}
    (evaluate : α → β → Except PyErr (Option V)) (predict : α) (target : β)
    (v : Option V) (h : evaluate predict target = Except.ok v)
    (hv : v ≠ none) :
    lossCall evaluate predict target = Except.ok none
    ∧ lossCall evaluate predict target ≠ evaluate predict target := by
  have hcall : lossCall evaluate predict target = Except.ok none := by
    simp [lossCall, h]
  refine ⟨hcall, ?_⟩
  rw [hcall, h]
  intro hcontra
  exact hv (Except.ok.inj hcontra).symm

/-- Claim C9 witness at a concrete loss: evaluate returning the value 7. -/
theorem claimC9_witness :
    lossCall (fun (_ : ℕ) (_ : ℕ) => Except.ok (some (7 : ℚ))) 0 0
      = Except.ok none
    ∧ lossCall (fun (_ : ℕ) (_ : ℕ) => Except.ok (some (7 : ℚ))) 0 0
      ≠ (fun (_ : ℕ) (_ : ℕ) => Except.ok (some (7 : ℚ))) 0 0 :=
  claimC9_loss_call_returns_none (fun _ _ => Except.ok (some (7 : ℚ))) 0 0
    (some 7) rfl (by simp)

/-- The fold underlying accumBy, applied at a key, adds to the initial
accumulator the sum of the values of exactly the items whose key is that
key: repeated container.get plus assignment sums and never overwrites. -/
theorem accumBy_foldl_apply {α : Type} (kf : α → ℕ) (vf : α → ℚ)
    (l : List α) :
    ∀ (acc : ℕ → ℚ) (key : ℕ),
      (l.foldl (fun a x => Function.update a (kf x) (a (kf x) + vf x))
          acc) key
        = acc key + ((l.filter fun x => kf x == key).map vf).sum := by
  induction l with
  | nil => intro acc key; simp
  | cons x xs ih =>
    intro acc key
    simp only [List.foldl_cons, List.filter_cons]
    rw [ih]
    by_cases hx : kf x = key
    · simp only [hx, beq_self_eq_true, if_true, List.map_cons, List.sum_cons,
        Function.update_apply, if_pos rfl]
      ring
    · have hkey : (Function.update acc (kf x) (acc (kf x) + vf x)) key
          = acc key := by
        simp [Function.update_apply]
        intro h
        exact absurd h.symm hx
      rw [hkey]
      have hbeq : (kf x == key) = false := by
        simp [hx]
      rw [hbeq]
      simp

/-- accumBy at a key is the sum of the values of the items mapping to
that key. -/
theorem accumBy_apply {α : Type} (kf : α → ℕ) (vf : α → ℚ) (l : List α)
    (key : ℕ) :
    accumBy kf vf l key = ((l.filter fun x => kf x == key).map vf).sum := by
  rw [accumBy, accumBy_foldl_apply]
  simp

/-- Filtered value sum over range N as a Finset sum. -/
theorem range_filter_map_sum (N key : ℕ) (kf : ℕ → ℕ) (vf : ℕ → ℚ) :
    (((List.range N).filter fun k => kf k == key).map vf).sum
      = ∑ k in Finset.range N, if kf k = key then vf k else 0 := by
  induction N with
  | zero => simp
  | succ n ih =>
    rw [List.range_succ, List.filter_append, List.map_append,
      List.sum_append, ih, Finset.sum_range_succ]
    by_cases h : kf n = key
    · simp [h]
    · simp [h]

/-- A raw index absent from the keys of a counts dictionary reads as
count 0. -/
theorem dictGet_eq_zero {l : List (ℕ × ℕ)} {b : ℕ}
    (h : b ∉ l.map Prod.fst) : dictGet l b = 0 := by
  induction l with
  | nil => rfl
  | cons p ps ih =>
    simp only [List.map_cons, List.mem_cons, not_or] at h
    have hbeq : (p.1 == b) = false := by
      simp
      intro hc
      exact h.1 hc.symm
    simp only [dictGet, List.find?_cons, hbeq]
    exact ih h.2

/-- Looking a key up in a cons dictionary. -/
theorem dictGet_cons (p : ℕ × ℕ) (ps : List (ℕ × ℕ)) (b : ℕ) :
    dictGet (p :: ps) b = if p.1 = b then p.2 else dictGet ps b := by
  by_cases h : p.1 = b
  · simp [dictGet, List.find?_cons, h]
  · have hbeq : (p.1 == b) = false := by simp [h]
    simp only [dictGet, List.find?_cons, hbeq, if_neg h]

/-- The per-entry value sum of the dictionary entries interpreting to a
key equals the Finset sum, over all raw bitstring indices below N, of
the looked-up count divided by S (keys are distinct and bounded). -/
theorem counts_filter_sum_eq_finset (interp : Option (ℕ → ℕ)) (N : ℕ)
    (S : ℚ) (key : ℕ) :
    ∀ (counts : List (ℕ × ℕ)),
      (counts.map Prod.fst).Nodup →
      (∀ p ∈ counts, p.1 < N) →
      ((counts.filter fun p => applyInterpret interp p.1 == key).map
          (fun p => (p.2 : ℚ) / S)).sum
        = ∑ b in Finset.range N,
            if applyInterpret interp b = key then
              (dictGet counts b : ℚ) / S
            else 0 := by
  intro counts
  induction counts with
  | nil =>
    intro _ _
    simp [dictGet]
  | cons p ps ih =>
    intro hnd hbd
    simp only [List.map_cons, List.nodup_cons] at hnd
    have hbN : p.1 ∈ Finset.range N :=
      Finset.mem_range.mpr (hbd p (List.mem_cons_self _ _))
    have hps : ∀ q ∈ ps, q.1 < N := fun q hq => hbd q (List.mem_cons_of_mem p hq)
    have hrec := ih hnd.2 hps
    have hzero : dictGet ps p.1 = 0 := dictGet_eq_zero hnd.1
    -- rewrite the cons lookup pointwise inside the Finset sum
    have hsplit : (∑ b in Finset.range N,
        if applyInterpret interp b = key then
          (dictGet (p :: ps) b : ℚ) / S else 0)
        = (if applyInterpret interp p.1 = key then (p.2 : ℚ) / S else 0)
          + ∑ b in Finset.range N,
              if applyInterpret interp b = key then
                (dictGet ps b : ℚ) / S else 0 := by
      rw [← Finset.add_sum_erase _ _ hbN,
          ← Finset.add_sum_erase _
            (fun b => if applyInterpret interp b = key then
              (dictGet ps b : ℚ) / S else 0) hbN]
      have h1 : dictGet (p :: ps) p.1 = p.2 := by
        rw [dictGet_cons, if_pos rfl]
      have h2 : ∀ b ∈ (Finset.range N).erase p.1,
          (if applyInterpret interp b = key then
            (dictGet (p :: ps) b : ℚ) / S else 0)
          = (if applyInterpret interp b = key then
            (dictGet ps b : ℚ) / S else 0) := by
        intro b hb
        have hbne : p.1 ≠ b := fun hc => (Finset.mem_erase.mp hb).1 hc.symm
        rw [dictGet_cons, if_neg hbne]
      rw [Finset.sum_congr rfl h2, h1, hzero]
      simp
    rw [List.filter_cons, hsplit, ← hrec]
    by_cases h : applyInterpret interp p.1 = key
    · simp [h]
    · simp [h]

/-- Summed over any key set covering the interpreted keys of its items,
accumBy recovers the total value sum of the list. -/
theorem sum_accumBy_over_keys {α : Type} (kf : α → ℕ) (vf : α → ℚ)
    (K : Finset ℕ) :
    ∀ (l : List α), (∀ x ∈ l, kf x ∈ K) →
      (∑ key in K, accumBy kf vf l key) = (l.map vf).sum := by
  intro l
  induction l with
  | nil => intro _; simp [accumBy]
  | cons x xs ih =>
    intro hmem
    have hx : kf x ∈ K := hmem x (List.mem_cons_self _ _)
    have hxs : ∀ y ∈ xs, kf y ∈ K := fun y hy =>
      hmem y (List.mem_cons_of_mem x hy)
    have hstep : ∀ key, accumBy kf vf (x :: xs) key
        = accumBy kf vf xs key + (if kf x = key then vf x else 0) := by
      intro key
      rw [accumBy_apply, accumBy_apply, List.filter_cons]
      by_cases h : kf x = key
      · simp [h]
        ring
      · simp [h]
    calc (∑ key in K, accumBy kf vf (x :: xs) key)
        = ∑ key in K, (accumBy kf vf xs key
            + (if kf x = key then vf x else 0)) :=
          Finset.sum_congr rfl (fun key _ => hstep key)
      _ = (∑ key in K, accumBy kf vf xs key)
            + ∑ key in K, (if kf x = key then vf x else 0) :=
          Finset.sum_add_distrib
      _ = (xs.map vf).sum + vf x := by
          rw [ih hxs, Finset.sum_ite_eq K (kf x) (fun _ => vf x),
            if_pos hx]
      _ = ((x :: xs).map vf).sum := by
          simp [add_comm]

/-- Dividing each value of a list sum by a common denominator. -/
theorem list_sum_div (l : List (ℕ × ℕ)) (S : ℚ) :
    (l.map fun p => (p.2 : ℚ) / S).sum
      = ((l.map fun p => (p.2 : ℚ)).sum) / S := by
  induction l with
  | nil => simp
  | cons q qs ih => simp [ih, add_div]

/-- Casting a natural count sum into the rationals. -/
theorem list_sum_cast (l : List (ℕ × ℕ)) :
    (l.map fun p => (p.2 : ℚ)).sum = ((l.map Prod.snd).sum : ℚ) := by
  induction l with
  | nil => simp
  | cons q qs ih => simp [ih]

/-- Claim C2: for every interpret function, injective or not, both the
probability accumulator and the per-parameter gradient dictionaries sum
on colliding output keys: the probability stored at an output key is the
sum over all raw bitstring indices interpreting to that key of
count / shots, and the gradient dictionary entry of every input and
weight parameter at an output key is the sum over all raw bitstring
indices interpreting to that key of the real part of the corresponding
amplitude-gradient entry. -/
theorem claimC2_interpret_collision_sum (interp : Option (ℕ → ℕ))
    (numQubits num_inputs : ℕ) (counts : List (ℕ × ℕ))
    (grad : ℕ → ℕ → ℚ × ℚ) (key : ℕ)
    (hnd : (counts.map Prod.fst).Nodup)
    (hbd : ∀ p ∈ counts, p.1 < 2 ^ numQubits) :
    CircuitQNN_probabilities interp counts key
      = (∑ b in Finset.range (2 ^ numQubits),
          if applyInterpret interp b = key then
            (dictGet counts b : ℚ) / ((counts.map Prod.snd).sum : ℚ)
          else 0)
    ∧ (∀ i, CircuitQNN_input_grad_dict interp numQubits grad i key
        = ∑ k in Finset.range (2 ^ numQubits),
            if applyInterpret interp k = key then (grad i k).1 else 0)
    ∧ (∀ i, CircuitQNN_weight_grad_dict interp numQubits num_inputs grad
          i key
        = ∑ k in Finset.range (2 ^ numQubits),
            if applyInterpret interp k = key then
              (grad (i + num_inputs) k).1
            else 0) := by
  refine ⟨?_, ?_, ?_⟩
  · rw [CircuitQNN_probabilities, accumBy_apply]
    exact counts_filter_sum_eq_finset interp (2 ^ numQubits) _ key counts
      hnd hbd
  · intro i
    rw [CircuitQNN_input_grad_dict, accumBy_apply]
    exact range_filter_map_sum (2 ^ numQubits) key _ _
  · intro i
    rw [CircuitQNN_weight_grad_dict, accumBy_apply]
    exact range_filter_map_sum (2 ^ numQubits) key _ _

/-- Claim C2 witness: the 2-qubit counts dictionary wCounts with the
non-injective parity interpret wInterp and the gradient tensor wGrad, at
output key 0 and parameter index 0. -/
theorem claimC2_witness :
    (wCounts.map Prod.fst).Nodup
    ∧ (∀ p ∈ wCounts, p.1 < 2 ^ 2)
    ∧ CircuitQNN_probabilities wInterp wCounts 0
      = (∑ b in Finset.range (2 ^ 2),
          if applyInterpret wInterp b = 0 then
            (dictGet wCounts b : ℚ) / ((wCounts.map Prod.snd).sum : ℚ)
          else 0)
    ∧ CircuitQNN_input_grad_dict wInterp 2 wGrad 0 0
      = (∑ k in Finset.range (2 ^ 2),
          if applyInterpret wInterp k = 0 then (wGrad 0 k).1 else 0)
    ∧ CircuitQNN_weight_grad_dict wInterp 2 1 wGrad 0 0
      = (∑ k in Finset.range (2 ^ 2),
          if applyInterpret wInterp k = 0 then (wGrad (0 + 1) k).1
          else 0) :=
  ⟨by decide, by decide,
   (claimC2_interpret_collision_sum wInterp 2 1 wCounts wGrad 0
      (by decide) (by decide)).1,
   (claimC2_interpret_collision_sum wInterp 2 1 wCounts wGrad 0
      (by decide) (by decide)).2.1 0,
   (claimC2_interpret_collision_sum wInterp 2 1 wCounts wGrad 0
      (by decide) (by decide)).2.2 0⟩

/-- Claim C5: with counts as exact integers and shots their (positive)
total, the probabilities accumulated by CircuitQNN._probabilities sum to
exactly 1 over any key set covering the interpreted outcomes, for every
interpret remapping and in both the dense and the sparse mode (both are
the same key-indexed map here). -/
theorem claimC5_probabilities_sum_to_one (interp : Option (ℕ → ℕ))
    (counts : List (ℕ × ℕ)) (K : Finset ℕ)
    (hshots : 0 < (counts.map Prod.snd).sum)
    (hK : ∀ p ∈ counts, applyInterpret interp p.1 ∈ K) :
    (∑ key in K, CircuitQNN_probabilities interp counts key) = 1 := by
  have hS : ((counts.map Prod.snd).sum : ℚ) ≠ 0 :=
    Nat.cast_ne_zero.mpr (Nat.pos_iff_ne_zero.mp hshots)
  rw [CircuitQNN_probabilities]
  rw [sum_accumBy_over_keys _ _ K counts hK]
  rw [list_sum_div, list_sum_cast, div_self hS]

/-- Claim C5 witness: the counts dictionary wCounts with the parity
interpret wInterp over the key set containing 0 and 1. -/
theorem claimC5_witness :
    0 < (wCounts.map Prod.snd).sum
    ∧ (∀ p ∈ wCounts, applyInterpret wInterp p.1 ∈ ({0, 1} : Finset ℕ))
    ∧ (∑ key in ({0, 1} : Finset ℕ),
        CircuitQNN_probabilities wInterp wCounts key) = 1 :=
  ⟨by decide, by decide,
   claimC5_probabilities_sum_to_one wInterp wCounts {0, 1} (by decide)
     (by decide)⟩

end QML
